import Mathlib

/-!
Verification of the Yoink job lifecycle and execution subsystem.

Shallow embedding of `src/backend/yoink/api/jobs.py` (JobStore),
`src/backend/yoink/api/worker.py` (ExtractionWorker),
`src/backend/yoink/api/storage.py` (Supabase upload helpers),
`src/backend/yoink/api/routes.py` (job-scoped route handlers) and
`src/backend/yoink/pipeline.py` (progress emission of `run_pipeline`).

Modelling conventions:
- SQLite rows of the `jobs` table become the Lean structure `JobRow` with exactly
  the columns of `JOBS_SCHEMA`; the table is a `List JobRow` in insertion order.
- ISO-8601 UTC timestamp strings compare lexicographically, which agrees with
  chronological order, so timestamps are modelled as `Nat` (hours since epoch);
  `datetime.now - timedelta(hours=h)` becomes truncated subtraction `now - h`.
- Python exceptions become `Except String`; an `assert` failure or an
  `sqlite3.OperationalError` is an `Except.error` carrying the message.
- The dynamic `UPDATE jobs SET ...` built by `update_status` is modelled in two
  stages, mirroring SQL statement preparation: first every referenced column
  name is checked against the schema (an unknown column fails the whole
  statement and mutates nothing), then the assignments are applied to the
  matching rows.
-/

namespace Yoink

/-- The five legal job states, from `VALID_STATUSES` in jobs.py. -/
def VALID_STATUSES : List String :=
  ["queued", "processing", "completed", "failed", "delivered"]

/-- One row of the SQLite `jobs` table, with exactly the columns declared by
`JOBS_SCHEMA` in jobs.py (`id, status, filename, upload_path, result_path,
error, current_page, total_pages, created_at, updated_at`). Note the schema
declares no owner / `user_id` column. -/
structure JobRow where
  id : String
  status : String
  filename : String
  upload_path : Option String
  result_path : Option String
  error : Option String
  current_page : Nat
  total_pages : Nat
  created_at : Nat
  updated_at : Nat
  deriving Repr, DecidableEq

/-- The `jobs` table: rows in insertion order. -/
abbrev Table := List JobRow

/-- The column names of the `jobs` table, from `JOBS_SCHEMA`. -/
def jobsColumns : List String :=
  ["id", "status", "filename", "upload_path", "result_path", "error",
   "current_page", "total_pages", "created_at", "updated_at"]

/-- A value bound into the dynamic SQL of `update_status` (the code only ever
binds strings and integers). -/
inductive Value where
  | str (s : String)
  | nat (n : Nat)
  deriving Repr, DecidableEq

/-- Apply one `column = ?` assignment of the dynamic SET clause to a row.
Every column of the schema is assignable; the value shapes are the ones the
codebase actually binds (strings for text columns, naturals for integer and
timestamp columns). -/
def setColumn (r : JobRow) (key : String) (v : Value) : JobRow :=
  match key, v with
  | "id", .str s => { r with id := s }
  | "status", .str s => { r with status := s }
  | "filename", .str s => { r with filename := s }
  | "upload_path", .str s => { r with upload_path := some s }
  | "result_path", .str s => { r with result_path := some s }
  | "error", .str s => { r with error := some s }
  | "current_page", .nat n => { r with current_page := n }
  | "total_pages", .nat n => { r with total_pages := n }
  | "created_at", .nat n => { r with created_at := n }
  | "updated_at", .nat n => { r with updated_at := n }
  | _, _ => r

/-- Apply the extra `**kwargs` assignments of `update_status` left to right. -/
def setColumns (r : JobRow) (kvs : List (String × Value)) : JobRow :=
  kvs.foldl (fun r kv => setColumn r kv.1 kv.2) r

/-- `JobStore.create_job` from jobs.py: inserts a row with status `queued`,
counters zero, both timestamps set to now. The `uuid4` generation is abstracted
into the `job_id` argument. The Python signature takes exactly
`(filename, upload_path)` and nothing else. -/
def create_job (t : Table) (job_id filename upload_path : String) (now : Nat) :
    Table × String :=
  (t ++ [{ id := job_id, status := "queued", filename := filename,
           upload_path := some upload_path, result_path := none, error := none,
           current_page := 0, total_pages := 0,
           created_at := now, updated_at := now }], job_id)

/-- `JobStore.get_job` from jobs.py: point lookup by id (`SELECT * FROM jobs
WHERE id = ?` returns the first matching row; `id` is the primary key). -/
def get_job (t : Table) (job_id : String) : Option JobRow :=
  t.find? (fun r => r.id = job_id)

/-- `JobStore.update_status` from jobs.py: asserts the status is one of the
five legal values (raising `AssertionError` otherwise, before any SQL runs),
then executes `UPDATE jobs SET status = ?, updated_at = ?, {kwargs} WHERE
id = ?`. Referencing a column not in the schema makes SQLite reject the whole
statement (`no such column`), mutating nothing. -/
def update_status (t : Table) (job_id status : String)
    (extras : List (String × Value)) (now : Nat) : Except String Table :=
  if status ∈ VALID_STATUSES then
    match extras.find? (fun kv => !(jobsColumns.contains kv.1)) with
    | some kv => .error ("no such column: " ++ kv.1)
    | none => .ok (t.map (fun r =>
        if r.id = job_id then
          setColumns { r with status := status, updated_at := now } extras
        else r))
  else .error ("Invalid status: " ++ status)

/-- `JobStore.update_progress` from jobs.py: unconditional overwrite of
`current_page`, `total_pages` and `updated_at` on the matching row. -/
def update_progress (t : Table) (job_id : String) (current total now : Nat) :
    Table :=
  t.map (fun r =>
    if r.id = job_id then
      { r with current_page := current, total_pages := total, updated_at := now }
    else r)

/-- `JobStore.delete_job` from jobs.py: `DELETE FROM jobs WHERE id = ?`;
returns `rowcount > 0`. -/
def delete_job (t : Table) (job_id : String) : Table × Bool :=
  (t.filter (fun r => r.id ≠ job_id), t.any (fun r => r.id = job_id))

/-- `JobStore.cleanup_old_jobs` from jobs.py: selects the ids of the rows with
`created_at < cutoff` where `cutoff = now - timedelta(hours=max_age_hours)`,
returns 0 if there are none, otherwise deletes the rows whose id is in the
selected set and returns how many were selected. -/
def cleanup_old_jobs (t : Table) (now max_age_hours : Nat) : Table × Nat :=
  let cutoff := now - max_age_hours
  let old := t.filter (fun r => r.created_at < cutoff)
  if old.isEmpty then (t, 0)
  else
    let ids := old.map JobRow.id
    (t.filter (fun r => !(ids.contains r.id)), old.length)

/-! ### Job Record Store lemmas and claims -/

lemma setColumns_nil (r : JobRow) : setColumns r [] = r := rfl

lemma update_status_ok (t : Table) (job_id status : String)
    (extras : List (String × Value)) (now : Nat)
    (hs : status ∈ VALID_STATUSES)
    (hc : extras.find? (fun kv => !(jobsColumns.contains kv.1)) = none) :
    update_status t job_id status extras now =
      .ok (t.map (fun r =>
        if r.id = job_id then
          setColumns { r with status := status, updated_at := now } extras
        else r)) := by
  unfold update_status
  rw [if_pos hs, hc]

lemma update_status_invalid (t : Table) (job_id status : String)
    (extras : List (String × Value)) (now : Nat)
    (hs : status ∉ VALID_STATUSES) :
    update_status t job_id status extras now =
      .error ("Invalid status: " ++ status) := by
  unfold update_status
  rw [if_neg hs]

/-- C5: `update_status` with a status outside the five defined states fails
the call with an invalid-argument failure (the `assert` raises before any SQL
executes, so the row is not mutated in any way); with any of the five defined
statuses it writes the new status and `updated_at` to the matching row. -/
theorem update_status_contract (t : Table) (job_id status : String)
    (extras : List (String × Value)) (now : Nat) :
    (status ∉ VALID_STATUSES →
      update_status t job_id status extras now =
        .error ("Invalid status: " ++ status)) ∧
    (status ∈ VALID_STATUSES →
      update_status t job_id status [] now =
        .ok (t.map (fun r =>
          if r.id = job_id then { r with status := status, updated_at := now }
          else r))) := by
  refine ⟨fun h => update_status_invalid t job_id status extras now h, fun h => ?_⟩
  rw [update_status_ok t job_id status [] now h rfl]
  rfl

/-- A concrete queued job row used by the witnesses below. -/
def row0 : JobRow :=
  { id := "j1", status := "queued", filename := "lecture.pdf",
    upload_path := some "uploads/u1/lecture.pdf", result_path := none,
    error := none, current_page := 0, total_pages := 0,
    created_at := 0, updated_at := 0 }

/-- Witness for C5 at concrete inputs: the undefined status `bogus` is
rejected without mutation, and the defined status `processing` is written
together with `updated_at`. -/
theorem update_status_contract_witness :
    update_status [row0] "j1" "bogus" [] 5 = .error "Invalid status: bogus" ∧
    update_status [row0] "j1" "processing" [] 5 =
      .ok [{ row0 with status := "processing", updated_at := 5 }] := by
  constructor
  · exact (update_status_contract [row0] "j1" "bogus" [] 5).1 (by decide)
  · rw [(update_status_contract [row0] "j1" "processing" [] 5).2 (by decide)]
    rfl

lemma old_ids_contains (t : Table) (c : Nat) (hnd : (t.map JobRow.id).Nodup)
    {r : JobRow} (hr : r ∈ t) :
    ((t.filter (fun r => r.created_at < c)).map JobRow.id).contains r.id
      = decide (r.created_at < c) := by
  by_cases hlt : r.created_at < c
  · have hmem : r ∈ t.filter (fun r => r.created_at < c) :=
      List.mem_filter.mpr ⟨hr, by simpa using hlt⟩
    have hm : r.id ∈ (t.filter (fun r => r.created_at < c)).map JobRow.id :=
      List.mem_map_of_mem _ hmem
    rw [decide_eq_true hlt]
    exact List.elem_iff.mpr hm
  · rw [decide_eq_false hlt, Bool.eq_false_iff]
    intro hcontains
    have hm : r.id ∈ (t.filter (fun r => r.created_at < c)).map JobRow.id :=
      List.elem_iff.mp hcontains
    obtain ⟨r', hr', hid⟩ := List.mem_map.mp hm
    have hrt : r' ∈ t := (List.mem_filter.mp hr').1
    have hlt' : r'.created_at < c := by
      simpa using (List.mem_filter.mp hr').2
    exact hlt ((List.inj_on_of_nodup_map hnd hrt hr hid) ▸ hlt')

/-- C6: `cleanup_old_jobs` removes exactly the rows whose `created_at` is
strictly older than `now - h`, leaves every other row unchanged (and in
order), and returns the number of rows removed. Uses that `id` is the primary
key of the table (the ids are pairwise distinct). -/
theorem cleanup_old_jobs_spec (t : Table) (now h : Nat)
    (hnd : (t.map JobRow.id).Nodup) :
    cleanup_old_jobs t now h =
      (t.filter (fun r => now - h ≤ r.created_at),
       (t.filter (fun r => r.created_at < now - h)).length) := by
  simp only [cleanup_old_jobs]
  by_cases hol : (t.filter (fun r => r.created_at < now - h)).isEmpty
  · rw [if_pos hol]
    rw [List.isEmpty_iff] at hol
    have hall := List.filter_eq_nil_iff.mp hol
    have h1 : t.filter (fun r => now - h ≤ r.created_at) = t := by
      rw [List.filter_eq_self]
      intro r hr
      have hnlt := hall r hr
      simp only [decide_eq_true_eq] at hnlt ⊢
      exact Nat.le_of_not_lt hnlt
    rw [h1, hol]
    rfl
  · rw [if_neg hol]
    congr 1
    apply List.filter_congr
    intro r hr
    rw [old_ids_contains t (now - h) hnd hr]
    by_cases hlt : r.created_at < now - h
    · simp [hlt, Nat.not_le.mpr hlt]
    · simp [hlt, Nat.le_of_not_lt hlt]

/-- Witness for C6 at concrete inputs (Scenario B shape): of two rows, the one
created 25 hours before a sweep with threshold 24 is removed and counted, the
newer one is kept, and a subsequent `get_job` of the removed id is absent. -/
theorem cleanup_old_jobs_spec_witness :
    cleanup_old_jobs [{ row0 with id := "a", created_at := 5 },
                      { row0 with id := "b", created_at := 10 }] 30 24 =
      ([{ row0 with id := "b", created_at := 10 }], 1) ∧
    get_job (cleanup_old_jobs [{ row0 with id := "a", created_at := 5 },
                               { row0 with id := "b", created_at := 10 }] 30 24).1 "a"
      = none := by
  have hspec := cleanup_old_jobs_spec
    [{ row0 with id := "a", created_at := 5 },
     { row0 with id := "b", created_at := 10 }] 30 24 (by decide)
  rw [hspec]
  constructor
  · rfl
  · rfl

/-! ### Extraction worker (worker.py) -/

/-- The result dict returned by `run_pipeline` (assembled by
`assemble_output` in encoder.py): only the fields the worker reads. -/
structure PipelineResult where
  total_pages : Nat
  total_components : Nat
  deriving Repr, DecidableEq

/-- Outcome of the body of the `try` block of `_process_job` up to the
completion update: either the pipeline returned a result (and the guest or
user result handling succeeded), or some step raised an exception carrying
the given message — conversion, detection, mapping, encoding, result
handling, or publishing. -/
inductive PipelineOutcome where
  | ok (result : PipelineResult)
  | raise (msg : String)
  deriving Repr, DecidableEq

/-- `Path(p).stem` for a POSIX path string: the final component without its
last extension. -/
def stem (p : String) : String :=
  let base := (p.splitOn "/").getLastD ""
  let parts := base.splitOn "."
  if parts.length ≤ 1 then base else String.intercalate "." parts.dropLast

/-- Worker-visible state: the jobs table plus the per-job output directories
currently on disk under `output_base_dir` (`./job_data`), keyed by job id. -/
structure ProcState where
  table : Table
  outputDirs : List String
  deriving Repr, DecidableEq

/-- `output_dir.mkdir(parents=True, exist_ok=True)` for the directory keyed
by the job id. -/
def mkdirJob (dirs : List String) (job_id : String) : List String :=
  if dirs.contains job_id then dirs else dirs ++ [job_id]

/-- `job.get("user_id")` on a row dict of the `jobs` table: `JOBS_SCHEMA`
declares no `user_id` column, so the dict has no such key and `.get` yields
`None` for every row. -/
def rowGetUserId (_r : JobRow) : Option String := none

/-- The `except` branch of `_process_job`: remove the partially written
output directory (`shutil.rmtree(output_dir, ignore_errors=True)`) and mark
the job `failed` with the error text `str(e)`. -/
def failJob (st : ProcState) (job_id msg : String) (now : Nat) :
    Except String ProcState := do
  let dirs := st.outputDirs.filter (fun d => d ≠ job_id)
  let t ← update_status st.table job_id "failed" [("error", .str msg)] now
  pure { table := t, outputDirs := dirs }

/-- `ExtractionWorker._process_job` from worker.py: fetch the row (skip
silently when absent — the job was deleted concurrently); mark it
`processing`; create the output directory `output_base_dir/job_id`; run the
pipeline. On success, build the result path
`output_dir/(stem of upload_path)_extracted.json`; since
`job.get("user_id")` is `None` for every row of this schema the guest flow
runs (it writes PNGs under the static directory, which only touches state
outside the store); then mark the job `completed` with `result_path`, the
final counters, and `total_components`. On any exception inside the `try`
block, fall into the `except` branch (`failJob`). A single clock reading
`now` stands for the per-call timestamps taken during one job. -/
def _process_job (st : ProcState) (job_id : String) (outcome : PipelineOutcome)
    (now : Nat) : Except String ProcState := do
  match get_job st.table job_id with
  | none => pure st
  | some job =>
    let t1 ← update_status st.table job_id "processing" [] now
    let dirs1 := mkdirJob st.outputDirs job_id
    match outcome with
    | .raise msg => failJob { table := t1, outputDirs := dirs1 } job_id msg now
    | .ok result =>
      let result_path := "job_data/" ++ job_id ++ "/"
        ++ stem (job.upload_path.getD "") ++ "_extracted.json"
      let _user_id := rowGetUserId job
      match update_status t1 job_id "completed"
          [("result_path", .str result_path),
           ("current_page", .nat result.total_pages),
           ("total_pages", .nat result.total_pages),
           ("total_components", .nat result.total_components)] now with
      | .ok t2 => pure { table := t2, outputDirs := dirs1 }
      | .error e => failJob { table := t1, outputDirs := dirs1 } job_id e now

/-! ### Worker claims -/

lemma get_job_map_if (t : Table) (job_id : String) (f : JobRow → JobRow)
    (hf : ∀ r, (f r).id = r.id) :
    get_job (t.map (fun r => if r.id = job_id then f r else r)) job_id =
      (get_job t job_id).map f := by
  induction t with
  | nil => rfl
  | cons a t ih =>
    by_cases ha : a.id = job_id
    · have hfa : (f a).id = job_id := by rw [hf a]; exact ha
      simp [get_job, ha, hfa, List.find?_cons_of_pos]
    · simp only [get_job, List.map_cons, if_neg ha]
      rw [List.find?_cons_of_neg, List.find?_cons_of_neg]
      · exact ih
      · simpa using ha
      · simpa using ha

/-- C2 (code bug, evaluated at a failing input): a queued job whose pipeline
run succeeds with 3 pages and 7 components. The completion update passes
`total_components` as an extra field, but `JOBS_SCHEMA` declares no such
column, so the UPDATE statement itself fails, the `except` branch runs,
the output directory is deleted, and the row ends in status `failed` with
the SQLite error captured — it is never `completed`, no `result_path` is
attached, and the counters stay 0. -/
theorem completed_update_hits_missing_column :
    _process_job { table := [row0], outputDirs := [] } "j1"
        (.ok { total_pages := 3, total_components := 7 }) 9 =
      Except.ok
        { table := [{ row0 with
            status := "failed", updated_at := 9,
            error := some "no such column: total_components" }],
          outputDirs := [] } := by
  rfl

/-- C3 (amended): when processing of an existing job raises an exception,
the worker removes the per-job output directory and transitions the row to
`failed` with the exception text `str(e)` captured in `error` — the captured
text is exactly the message the exception carries, which the code does not
guarantee to be non-empty. -/
theorem failed_job_marks_failed (st : ProcState) (job_id msg : String)
    (now : Nat) (job : JobRow) (hget : get_job st.table job_id = some job) :
    ∃ st', _process_job st job_id (.raise msg) now = .ok st' ∧
      get_job st'.table job_id =
        some { job with status := "failed", error := some msg, updated_at := now } ∧
      job_id ∉ st'.outputDirs := by
  have hproc := update_status_ok st.table job_id "processing" [] now (by decide) rfl
  have hfail := update_status_ok
    (st.table.map (fun r => if r.id = job_id then
      setColumns { r with status := "processing", updated_at := now } [] else r))
    job_id "failed" [("error", .str msg)] now (by decide) rfl
  have hrun : _process_job st job_id (.raise msg) now = .ok
      { table :=
          ((st.table.map (fun r => if r.id = job_id then
              setColumns { r with status := "processing", updated_at := now } [] else r)).map
            (fun r => if r.id = job_id then
              setColumns { r with status := "failed", updated_at := now }
                [("error", .str msg)] else r)),
        outputDirs := (mkdirJob st.outputDirs job_id).filter (fun d => d ≠ job_id) } := by
    unfold _process_job
    rw [hget]
    show (do
      let t1 ← update_status st.table job_id "processing" [] now
      failJob { table := t1, outputDirs := mkdirJob st.outputDirs job_id } job_id msg now :
        Except String ProcState) = _
    rw [hproc]
    show failJob _ job_id msg now = _
    unfold failJob
    rw [hfail]
    rfl
  refine ⟨_, hrun, ?_, ?_⟩
  · rw [get_job_map_if, get_job_map_if, hget]
    · rfl
    · intro r; rfl
    · intro r; rfl
  · intro hmem
    have h2 := (List.mem_filter.mp hmem).2
    simp at h2

/-- Witness for the amended C3 at a concrete input. -/
theorem failed_job_marks_failed_witness :
    get_job [row0] "j1" = some row0 ∧
    (∃ st', _process_job { table := [row0], outputDirs := [] } "j1"
          (.raise "boom") 9 = .ok st' ∧
      get_job st'.table "j1" =
        some { row0 with status := "failed", error := some "boom", updated_at := 9 } ∧
      "j1" ∉ st'.outputDirs) :=
  ⟨rfl, failed_job_marks_failed { table := [row0], outputDirs := [] } "j1" "boom" 9 row0 rfl⟩

/-- C3 counterexample to the claim as stated: an exception whose string
representation is empty (Python allows `Exception()` with no message, and
`str(e)` is then the empty string). The row ends `failed` with
`error = some ""` — the captured error text is empty, not non-empty. -/
theorem failed_job_empty_error_text :
    _process_job { table := [row0], outputDirs := [] } "j1" (.raise "") 9 =
      Except.ok
        { table := [{ row0 with
            status := "failed", updated_at := 9, error := some "" }],
          outputDirs := [] } ∧
    ("" : String).length = 0 := by
  exact ⟨rfl, rfl⟩

/-! ### The consumer loop (worker.py `_process_loop`) -/

/-- State of the single background consumer: the queued ids in FIFO order,
the id currently being awaited by `_process_job` (the `asyncio.Queue` is
drained by exactly one task, so this is a single optional slot), the ids
whose processing has finished in completion order, and the ids whose
processing raised and was logged by `logger.exception`. -/
structure LoopState where
  queue : List String
  inFlight : Option String
  completed : List String
  loggedErrors : List String
  deriving Repr, DecidableEq

/-- One scheduling step of `_process_loop`: when idle, pull exactly one id
from the queue (`await self._queue.get()`); when a job is in flight, finish
it — if `_process_job` raised, the `except Exception` arm catches and logs
the error, and in either case the loop proceeds (`raises id` says whether
processing of `id` raises an unexpected exception). -/
def loopStep (raises : String → Bool) (s : LoopState) : LoopState :=
  match s.inFlight with
  | some id =>
    { s with inFlight := none,
             completed := s.completed ++ [id],
             loggedErrors :=
               if raises id then s.loggedErrors ++ [id] else s.loggedErrors }
  | none =>
    match s.queue with
    | [] => s
    | id :: rest => { s with queue := rest, inFlight := some id }

lemma loopStep_iterate (raises : String → Bool) (k : Nat) :
    ∀ q c l, (loopStep raises)^[2 * k] ⟨q, none, c, l⟩ =
      ⟨q.drop k, none, c ++ q.take k, l ++ (q.take k).filter raises⟩ := by
  induction k with
  | zero => intro q c l; simp
  | succ k ih =>
    intro q c l
    cases q with
    | nil =>
      have hfix : loopStep raises ⟨[], none, c, l⟩ = ⟨[], none, c, l⟩ := rfl
      simp [Function.iterate_fixed hfix]
    | cons id rest =>
      have h2 : 2 * (k + 1) = 2 * k + 2 := by ring
      rw [h2, Function.iterate_add_apply]
      have hstep2 : (loopStep raises)^[2] ⟨id :: rest, none, c, l⟩ =
          ⟨rest, none, c ++ [id],
           l ++ (if raises id then [id] else [])⟩ := by
        by_cases hr : raises id <;> simp [loopStep, hr]
      rw [hstep2, ih]
      by_cases hr : raises id <;> simp [hr, List.filter_cons]

/-- C1: the consumer processes jobs strictly one at a time in FIFO enqueue
order. Starting idle with the enqueued ids `queue`, after `2 * k` scheduler
steps the first `k` ids have been processed to completion in enqueue order,
exactly the ids not yet pulled remain queued, and the consumer slot is free
again — at every instant the single `inFlight` slot holds at most one job.
A job whose processing raises is caught and logged (it appears in
`loggedErrors`) and still completes its slot: the loop proceeds to the
remaining ids instead of terminating, so the completion prefix is
independent of which jobs raise. -/
theorem process_loop_single_flight_fifo (queue : List String)
    (raises : String → Bool) (k : Nat) :
    (loopStep raises)^[2 * k]
        { queue := queue, inFlight := none, completed := [], loggedErrors := [] } =
      { queue := queue.drop k, inFlight := none, completed := queue.take k,
        loggedErrors := (queue.take k).filter raises } := by
  simpa using loopStep_iterate raises k queue [] []

/-! ### Owner plumbing (jobs.py `create_job` versus its callers) -/

/-- The declared parameter names of `JobStore.create_job` in jobs.py,
besides `self`: the function signature is
`create_job(self, filename: str, upload_path: str)` and declares no
keyword catch-all. -/
def create_job_param_names : List String := ["filename", "upload_path"]

/-- The keyword arguments the `/extract` route handler in routes.py passes
to `job_store.create_job`: `filename=...`, `upload_path=...`,
`user_id=user_id`. -/
def extract_call_kwargs : List String := ["filename", "upload_path", "user_id"]

/-- Python keyword-call semantics for a function without a keyword
catch-all: the call binds successfully only when every keyword argument
names a declared parameter; otherwise it raises `TypeError` before the
function body runs. -/
def pythonCallAccepted (paramNames kwargs : List String) : Bool :=
  kwargs.all (fun k => paramNames.contains k)

/-- C4 (code bug, evaluated at the failing call): the store's create
operation does not accept an owner — the `/extract` handler passes the
keyword `user_id`, which `create_job` does not declare, so every job
creation raises `TypeError`; the `jobs` schema has no `user_id` column, so
no row can record an owner; and `job.get("user_id")` — the probe both the
worker and the delete handler route on — yields `None` for every row, so
owner-based result routing can never choose the owned branch. -/
theorem create_job_owner_mismatch :
    pythonCallAccepted create_job_param_names extract_call_kwargs = false ∧
    jobsColumns.contains "user_id" = false ∧
    ∀ r : JobRow, rowGetUserId r = none := by
  exact ⟨by decide, by decide, fun r => rfl⟩

/-! ### Result publisher (storage.py `upload_components_to_supabase`) -/

/-- `_UPLOAD_MAX_RETRIES` from storage.py. -/
def UPLOAD_MAX_RETRIES : Nat := 3

/-- The retry loop inside `_upload`: `for attempt in range(3)`, return on the
first successful storage call, re-raise on the last failed attempt (and
otherwise back off and retry; the backoff delay does not affect the result).
`fails a` says whether the storage call raises on 0-based attempt `a`;
`fuel` counts the attempts left, so it starts at `UPLOAD_MAX_RETRIES` and the
zero-fuel fallback is unreachable. -/
def uploadFrom (fails : Nat → Bool) : Nat → Nat → Except String Unit
  | _, 0 => .error "upload failed"
  | attempt, fuel + 1 =>
    if fails attempt then
      if attempt = UPLOAD_MAX_RETRIES - 1 then .error "upload failed"
      else uploadFrom fails (attempt + 1) fuel
    else .ok ()

/-- One `_upload` task for one component. -/
def uploadOnce (fails : Nat → Bool) : Except String Unit :=
  uploadFrom fails 0 UPLOAD_MAX_RETRIES

/-- Whether the upload task for a component ends in success. -/
def uploadOk (fails : Nat → Bool) : Bool :=
  match uploadOnce fails with
  | .ok _ => true
  | .error _ => false

/-- The public URL built for a component:
`supabase_url/storage/v1/object/public/{bucket}/{user}/{job}/{comp}.png`
with `BUCKET_NAME = "scans"`. -/
def publicUrl (supabase_url user_id job_id comp_id : String) : String :=
  supabase_url ++ "/storage/v1/object/public/scans/" ++ user_id ++ "/"
    ++ job_id ++ "/" ++ comp_id ++ ".png"

/-- `upload_components_to_supabase`: builds one metadata record (with the
public URL in place of the raw payload) per component up front, launches one
`_upload` task per component (bounded by the semaphore, which affects only
scheduling) and `asyncio.gather`s them. The first value is the set of bucket
objects that end up uploaded — tasks that succeed are never rolled back, even
when the call as a whole fails. The second value is the result of the call:
the full metadata list when every upload succeeded, otherwise the first
exhausted upload error propagates. -/
def upload_components (supabase_url user_id job_id : String)
    (comps : List String) (fails : String → Nat → Bool) :
    List String × Except String (List (String × String)) :=
  (comps.filter (fun c => uploadOk (fails c)),
   if comps.all (fun c => uploadOk (fails c)) then
     .ok (comps.map (fun c => (c, publicUrl supabase_url user_id job_id c)))
   else .error "upload failed")

lemma uploadOk_eq (fails : Nat → Bool) :
    uploadOk fails = (!fails 0 || !fails 1 || !fails 2) := by
  by_cases h0 : fails 0 <;> by_cases h1 : fails 1 <;> by_cases h2 : fails 2 <;>
    simp [uploadOk, uploadOnce, uploadFrom, UPLOAD_MAX_RETRIES, h0, h1, h2]

lemma uploadOk_iff (fails : Nat → Bool) :
    uploadOk fails = true ↔ ∃ a, a < UPLOAD_MAX_RETRIES ∧ fails a = false := by
  rw [uploadOk_eq]
  constructor
  · intro h
    rcases (Bool.or_eq_true _ _).mp h with h | h
    · rcases (Bool.or_eq_true _ _).mp h with h | h
      · exact ⟨0, by decide, by simpa using h⟩
      · exact ⟨1, by decide, by simpa using h⟩
    · exact ⟨2, by decide, by simpa using h⟩
  · rintro ⟨a, ha, hfa⟩
    have ha3 : a < 3 := ha
    interval_cases a <;> simp_all

/-- C7: an individual upload succeeds exactly when one of its (up to) 3
attempts succeeds, so a transient failure on the first attempt still
produces a record for that artifact and K clean artifacts yield K records;
when some artifact fails all 3 attempts the publish call as a whole fails,
yet exactly the artifacts whose uploads succeeded remain uploaded — they are
not rolled back. -/
theorem upload_retry_no_rollback (url uid jid : String) (comps : List String)
    (fails : String → Nat → Bool) :
    (∀ c, uploadOk (fails c) = true ↔
        ∃ a, a < UPLOAD_MAX_RETRIES ∧ fails c a = false) ∧
    (upload_components url uid jid comps fails).1 =
      comps.filter (fun c => uploadOk (fails c)) ∧
    ((∀ c ∈ comps, uploadOk (fails c) = true) →
      (upload_components url uid jid comps fails).2 =
        .ok (comps.map (fun c => (c, publicUrl url uid jid c)))) ∧
    ((∃ c ∈ comps, uploadOk (fails c) = false) →
      (upload_components url uid jid comps fails).2 = .error "upload failed") := by
  refine ⟨fun c => uploadOk_iff (fails c), rfl, ?_, ?_⟩
  · intro hall
    have h : comps.all (fun c => uploadOk (fails c)) = true :=
      List.all_eq_true.mpr hall
    simp only [upload_components, h, if_true]
  · rintro ⟨c, hc, hbad⟩
    have h : comps.all (fun c => uploadOk (fails c)) = false := by
      rw [List.all_eq_false]
      exact ⟨c, hc, by simp [hbad]⟩
    simp only [upload_components, h, Bool.false_eq_true, if_false]

/-- The failure schedule of the C7 witness: component `a` fails only on its
first attempt (transient), `b` never fails, `c` fails every attempt
(persistent). -/
def failsEx : String → Nat → Bool := fun c a =>
  if c = "a" then a = 0 else if c = "c" then true else false

/-- Witness for C7 at a concrete input: publishing `a`, `b`, `c` under
`failsEx` fails overall (because of `c`), yet `a` — recovered by retry — and
`b` remain uploaded. -/
theorem upload_retry_no_rollback_witness :
    (upload_components "u" "me" "j1" ["a", "b", "c"] failsEx).2 =
      .error "upload failed" ∧
    (upload_components "u" "me" "j1" ["a", "b", "c"] failsEx).1 = ["a", "b"] := by
  refine ⟨(upload_retry_no_rollback "u" "me" "j1" ["a", "b", "c"] failsEx).2.2.2
      ⟨"c", by decide, by decide⟩, ?_⟩
  rw [(upload_retry_no_rollback "u" "me" "j1" ["a", "b", "c"] failsEx).2.1]
  decide

/-! ### Route handlers (routes.py) -/

/-- `job_id.replace("-", "")`: remove every dash from the caller-supplied
job id. The handlers normalize ids this way because Supabase renders UUIDs
with dashes while the local store keys rows by dashless hex. -/
def stripDashes (s : String) : String :=
  ⟨s.data.filter (fun c => c ≠ '-')⟩

/-- Outcome of a route handler: a successful response payload, an
`HTTPException(code, detail)`, or an uncaught Python exception. -/
inductive RouteOutcome (α : Type) where
  | ok (a : α)
  | httpError (code : Nat) (detail : String)
  | raised (msg : String)
  deriving Repr, DecidableEq

/-- `GET /jobs/{job_id}` (routes.py `get_job_status`): strips dashes, looks
the row up, 404 when absent; every field of the response (job_id, status,
filename, progress, error, created_at) is drawn from the row, which the
model returns whole. Performs no store mutation. -/
def get_job_status (t : Table) (raw_id : String) : RouteOutcome JobRow :=
  match get_job t (stripDashes raw_id) with
  | none => .httpError 404 "Job not found"
  | some job => .ok job

/-- `GET /jobs/{job_id}/result` (routes.py `get_job_result`): strips dashes;
404 when the row is absent; 409 unless the status is `completed`; 404 when
`result_path` is unset or the file is missing from disk (`fsFiles` is the
set of files present). The surviving branch then evaluates
`job["user_id"]` — a key the row dicts of `JOBS_SCHEMA` do not have — so it
raises `KeyError`. No branch performs any store mutation: the table comes
back unchanged, and in particular no branch writes a `delivered` status. -/
def get_job_result (t : Table) (fsFiles : List String) (raw_id : String) :
    RouteOutcome Unit × Table :=
  match get_job t (stripDashes raw_id) with
  | none => (.httpError 404 "Job not found", t)
  | some job =>
    if job.status ≠ "completed" then
      (.httpError 409 ("Job is not completed yet. Current status: " ++ job.status), t)
    else
      match job.result_path with
      | none => (.httpError 404 "Result file not found", t)
      | some rp =>
        if fsFiles.contains rp then (.raised "KeyError: user_id", t)
        else (.httpError 404 "Result file not found", t)

/-- `GET /jobs/{job_id}/result/components` (routes.py
`get_result_components`): same id normalization and checks as
`get_job_result`, and it too evaluates `job["user_id"]` (before building the
component batch), so it raises `KeyError` on the surviving branch; `offset`
and `limit` are accepted but never reached. No store mutation. -/
def get_result_components (t : Table) (fsFiles : List String) (raw_id : String)
    (_offset _limit : Nat) : RouteOutcome Unit × Table :=
  match get_job t (stripDashes raw_id) with
  | none => (.httpError 404 "Job not found", t)
  | some job =>
    if job.status ≠ "completed" then
      (.httpError 409 ("Job is not completed yet. Current status: " ++ job.status), t)
    else
      match job.result_path with
      | none => (.httpError 404 "Result file not found", t)
      | some rp =>
        if fsFiles.contains rp then (.raised "KeyError: user_id", t)
        else (.httpError 404 "Result file not found", t)

/-- `DELETE /jobs/{job_id}` (routes.py `delete_job`): strips dashes, 404
when the row is absent; otherwise removes local files and — because
`job.get("user_id")` is `None` for every row of this schema — the guest
static directory (file cleanup touches only state outside the store), then
deletes the row. -/
def delete_job_route (t : Table) (raw_id : String) : RouteOutcome Unit × Table :=
  match get_job t (stripDashes raw_id) with
  | none => (.httpError 404 "Job not found", t)
  | some _job => (.ok (), (delete_job t (stripDashes raw_id)).1)

/-- C10: every job-scoped handler — status lookup, result retrieval,
component batch retrieval, and delete — removes every dash from the
caller-supplied job id before querying the store, so two job-id strings that
agree after removing dashes address the same job record and produce
identical handler behavior. -/
theorem handlers_strip_dashes (t : Table) (fsFiles : List String) (a b : String)
    (offset limit : Nat)
    (hab : a.data.filter (fun c => c ≠ '-') = b.data.filter (fun c => c ≠ '-')) :
    stripDashes a = stripDashes b ∧
    get_job_status t a = get_job_status t b ∧
    get_job_result t fsFiles a = get_job_result t fsFiles b ∧
    get_result_components t fsFiles a offset limit =
      get_result_components t fsFiles b offset limit ∧
    delete_job_route t a = delete_job_route t b := by
  have hs : stripDashes a = stripDashes b := congrArg String.mk hab
  refine ⟨hs, ?_, ?_, ?_, ?_⟩ <;>
    simp only [get_job_status, get_job_result, get_result_components,
      delete_job_route, hs]

/-- Witness for C10 at concrete inputs: the ids `ab-c` and `a-bc` differ
only in the position of their dash and address the same record. -/
theorem handlers_strip_dashes_witness :
    stripDashes "ab-c" = stripDashes "a-bc" ∧
    get_job_status [row0] "ab-c" = get_job_status [row0] "a-bc" ∧
    get_job_result [row0] [] "ab-c" = get_job_result [row0] [] "a-bc" ∧
    get_result_components [row0] [] "ab-c" 0 10 =
      get_result_components [row0] [] "a-bc" 0 10 ∧
    delete_job_route [row0] "ab-c" = delete_job_route [row0] "a-bc" :=
  handlers_strip_dashes [row0] [] "ab-c" "a-bc" 0 10 (by decide)

/-! ### C8: there is no completed → delivered transition -/

/-- The worker state `_process_job` produces when the `except` branch runs
for a present job: the row has been marked `processing`, then `failed` with
the error text, and the output directory has been removed. -/
def procFailState (st : ProcState) (job_id msg : String) (now : Nat) : ProcState :=
  { table := (st.table.map (fun r => if r.id = job_id then
        setColumns { r with status := "processing", updated_at := now } [] else r)).map
      (fun r => if r.id = job_id then
        setColumns { r with status := "failed", updated_at := now }
          [("error", .str msg)] else r),
    outputDirs := (mkdirJob st.outputDirs job_id).filter (fun d => d ≠ job_id) }

lemma process_job_raise_run (st : ProcState) (job_id msg : String) (now : Nat)
    (job : JobRow) (hget : get_job st.table job_id = some job) :
    _process_job st job_id (.raise msg) now = .ok (procFailState st job_id msg now) := by
  unfold _process_job
  rw [hget]
  show (do
    let t1 ← update_status st.table job_id "processing" [] now
    failJob { table := t1, outputDirs := mkdirJob st.outputDirs job_id } job_id msg now :
      Except String ProcState) = _
  rw [update_status_ok st.table job_id "processing" [] now (by decide) rfl]
  show failJob _ job_id msg now = _
  unfold failJob
  rw [update_status_ok _ job_id "failed" [("error", .str msg)] now (by decide) rfl]
  rfl

lemma process_job_ok_run (st : ProcState) (job_id : String)
    (result : PipelineResult) (now : Nat)
    (job : JobRow) (hget : get_job st.table job_id = some job) :
    _process_job st job_id (.ok result) now =
      .ok (procFailState st job_id "no such column: total_components" now) := by
  unfold _process_job
  rw [hget]
  show (do
    let t1 ← update_status st.table job_id "processing" [] now
    match update_status t1 job_id "completed"
        [("result_path", .str ("job_data/" ++ job_id ++ "/"
            ++ stem (job.upload_path.getD "") ++ "_extracted.json")),
         ("current_page", .nat result.total_pages),
         ("total_pages", .nat result.total_pages),
         ("total_components", .nat result.total_components)] now with
    | .ok t2 => (pure { table := t2, outputDirs := mkdirJob st.outputDirs job_id } :
        Except String ProcState)
    | .error e =>
        failJob { table := t1, outputDirs := mkdirJob st.outputDirs job_id } job_id e now :
      Except String ProcState) = _
  rw [update_status_ok st.table job_id "processing" [] now (by decide) rfl]
  show failJob _ job_id "no such column: total_components" now = _
  unfold failJob
  rw [update_status_ok _ job_id "failed"
    [("error", .str "no such column: total_components")] now (by decide) rfl]
  rfl

lemma mem_map_if_status (t : Table) (job_id s : String)
    (extras : List (String × Value)) (now : Nat)
    (hex : ∀ r : JobRow,
      (setColumns { r with status := s, updated_at := now } extras).status = s)
    {r' : JobRow}
    (hr' : r' ∈ t.map (fun r => if r.id = job_id then
      setColumns { r with status := s, updated_at := now } extras else r))
    (hne : r'.status ≠ s) :
    r' ∈ t := by
  obtain ⟨r, hr, hmap⟩ := List.mem_map.mp hr'
  by_cases h0 : r.id = job_id
  · rw [if_pos h0] at hmap
    exact absurd (hmap ▸ hex r) hne
  · rw [if_neg h0] at hmap
    exact hmap ▸ hr

lemma procFailState_mem (st : ProcState) (job_id msg : String) (now : Nat)
    {r' : JobRow} (hr' : r' ∈ (procFailState st job_id msg now).table)
    (hdel : r'.status = "delivered") : r' ∈ st.table := by
  have h1 := mem_map_if_status _ job_id "failed" [("error", .str msg)] now
    (fun r => rfl) hr' (by rw [hdel]; decide)
  exact mem_map_if_status _ job_id "processing" [] now (fun r => rfl) h1
    (by rw [hdel]; decide)

/-- C8 (amended): result retrieval performs no status write — the handler
returns the table unchanged in every branch, so there is no completed →
delivered transition as a follow-on to result retrieval (or anywhere else:
no code path writes `delivered`). The worker only writes the statuses
`processing` and `failed` (the `completed` write is unreachable because of
the missing `total_components` column), so any row holding `delivered`
after a worker pass already held it before; the realized edges are
`queued → processing → failed` plus the intended
`processing → completed` write, and none reach `delivered`. -/
theorem no_delivered_transition (t : Table) (fsFiles : List String)
    (raw : String) (st : ProcState) (job_id : String)
    (outcome : PipelineOutcome) (now : Nat) :
    (get_job_result t fsFiles raw).2 = t ∧
    (∀ st', _process_job st job_id outcome now = .ok st' →
      ∀ r' ∈ st'.table, r'.status = "delivered" → r' ∈ st.table) := by
  constructor
  · unfold get_job_result
    split
    · rfl
    · split
      · rfl
      · split
        · rfl
        · split <;> rfl
  · intro st' hrun r' hr' hdel
    rcases hget : get_job st.table job_id with _ | job
    · have habs : _process_job st job_id outcome now = .ok st := by
        unfold _process_job
        rw [hget]
        rfl
      rw [habs] at hrun
      cases hrun
      exact hr'
    · rcases outcome with result | msg
      · rw [process_job_ok_run st job_id result now job hget] at hrun
        cases hrun
        exact procFailState_mem st job_id _ now hr' hdel
      · rw [process_job_raise_run st job_id msg now job hget] at hrun
        cases hrun
        exact procFailState_mem st job_id _ now hr' hdel

/-- A completed job row with its result file on disk, for the C8
counterexample. -/
def completedRow : JobRow :=
  { row0 with
    id := "j2", status := "completed",
    result_path := some "job_data/j2/lecture_extracted.json",
    current_page := 3, total_pages := 3 }

/-- C8 counterexample to the claim as stated: retrieving the result of a
completed job leaves the row in status `completed`; it is not marked
`delivered`. -/
theorem result_retrieval_leaves_completed :
    (get_job_result [completedRow] ["job_data/j2/lecture_extracted.json"] "j2").2
      = [completedRow] ∧
    (get_job_result [completedRow] ["job_data/j2/lecture_extracted.json"] "j2").2.map
        JobRow.status = ["completed"] ∧
    ("completed" : String) ≠ "delivered" := by
  exact ⟨rfl, rfl, by decide⟩

/-- Witness for the amended C8 at concrete inputs. -/
theorem no_delivered_transition_witness :
    (get_job_result [completedRow] [] "j2").2 = [completedRow] ∧
    (∀ st', _process_job { table := [row0], outputDirs := [] } "j1"
          (.raise "boom") 9 = .ok st' →
      ∀ r' ∈ st'.table, r'.status = "delivered" → r' ∈ [row0]) :=
  no_delivered_transition [completedRow] [] "j2"
    { table := [row0], outputDirs := [] } "j1" (.raise "boom") 9

/-! ### Pipeline progress (pipeline.py, converter.py) -/

/-- Page numbering produced by `convert_file` in converter.py:
`convert_image` returns `[(1, path)]` and `convert_pdf` returns pages
numbered `1..n` in order, so an `n`-page converted document carries the page
numbers `[1, ..., n]`. -/
def convertedPageNumbers (n : Nat) : List Nat :=
  (List.range n).map (· + 1)

/-- The sequence of `progress_callback(page_number, len(pages))` calls made
by the page loop of `run_pipeline`, in emission order: one call per page,
after the page is processed. -/
def pipelineEmissions (pages : List Nat) : List (Nat × Nat) :=
  pages.map (fun p => (p, pages.length))

/-- The progress bridge of the worker: each emission is marshalled onto the
event loop with `asyncio.run_coroutine_threadsafe`, whose callbacks run in
FIFO order when scheduled from the single pipeline thread, so
`update_progress` is applied to the store once per emission, in emission
order. -/
def applyProgress (t : Table) (job_id : String) (updates : List (Nat × Nat))
    (now : Nat) : Table :=
  updates.foldl (fun t u => update_progress t job_id u.1 u.2 now) t

lemma update_progress_mem (t : Table) (job_id : String) (cur tot now : Nat) :
    ∀ r ∈ update_progress t job_id cur tot now, r.id = job_id →
      r.current_page = cur ∧ r.total_pages = tot := by
  intro r hr hid
  unfold update_progress at hr
  obtain ⟨r0, hr0, hmap⟩ := List.mem_map.mp hr
  by_cases h0 : r0.id = job_id
  · rw [if_pos h0] at hmap
    rw [← hmap]
    exact ⟨rfl, rfl⟩
  · rw [if_neg h0] at hmap
    rw [← hmap] at hid
    exact absurd hid h0

lemma applyProgress_last (t : Table) (job_id : String) (us : List (Nat × Nat))
    (u : Nat × Nat) (now : Nat) :
    ∀ r ∈ applyProgress t job_id (us ++ [u]) now, r.id = job_id →
      r.current_page = u.1 ∧ r.total_pages = u.2 := by
  intro r hr hid
  unfold applyProgress at hr
  rw [List.foldl_append] at hr
  simp only [List.foldl_cons, List.foldl_nil] at hr
  exact update_progress_mem _ job_id u.1 u.2 now r hr hid

/-- C9: for an `n`-page document (`n ≥ 1`) the pipeline emits the progress
updates `(1, n), ..., (n, n)` in page order; the sequence is non-decreasing
in both `current_page` and `total_pages`; the last update before the job
would complete satisfies `current_page = total_pages`; and applying the
updates to the store in emission order leaves the job row with
`current_page = total_pages = n`. -/
theorem pipeline_progress_monotone (n : Nat) (hn : 0 < n) (t : Table)
    (job_id : String) (now : Nat) :
    pipelineEmissions (convertedPageNumbers n) =
      (List.range n).map (fun i => (i + 1, n)) ∧
    List.Chain' (fun u v : Nat × Nat => u.1 ≤ v.1 ∧ u.2 ≤ v.2)
      (pipelineEmissions (convertedPageNumbers n)) ∧
    (pipelineEmissions (convertedPageNumbers n)).getLast? = some (n, n) ∧
    (∀ r ∈ applyProgress t job_id (pipelineEmissions (convertedPageNumbers n)) now,
      r.id = job_id → r.current_page = n ∧ r.total_pages = n) := by
  obtain ⟨m, rfl⟩ : ∃ m, n = m + 1 := ⟨n - 1, (Nat.succ_pred_eq_of_pos hn).symm⟩
  have hemi : pipelineEmissions (convertedPageNumbers (m + 1)) =
      (List.range (m + 1)).map (fun i => (i + 1, m + 1)) := by
    simp [pipelineEmissions, convertedPageNumbers, List.map_map, Function.comp]
  have hsplit : (List.range (m + 1)).map (fun i => (i + 1, m + 1)) =
      (List.range m).map (fun i => (i + 1, m + 1)) ++ [(m + 1, m + 1)] := by
    rw [List.range_succ, List.map_append]
    rfl
  refine ⟨hemi, ?_, ?_, ?_⟩
  · rw [hemi]
    refine List.Pairwise.chain' ?_
    refine List.Pairwise.map _
      (fun a b hab => ⟨Nat.succ_le_succ (Nat.le_of_lt hab), Nat.le_refl _⟩) ?_
    exact List.pairwise_lt_range _
  · rw [hemi, hsplit, List.getLast?_concat]
  · rw [hemi, hsplit]
    exact applyProgress_last t job_id _ (m + 1, m + 1) now

/-- Witness for C9 at a concrete input: a 2-page document over a one-row
table. -/
theorem pipeline_progress_monotone_witness :
    (0 : Nat) < 2 ∧
    (pipelineEmissions (convertedPageNumbers 2) =
        (List.range 2).map (fun i => (i + 1, 2)) ∧
      List.Chain' (fun u v : Nat × Nat => u.1 ≤ v.1 ∧ u.2 ≤ v.2)
        (pipelineEmissions (convertedPageNumbers 2)) ∧
      (pipelineEmissions (convertedPageNumbers 2)).getLast? = some (2, 2) ∧
      (∀ r ∈ applyProgress [row0] "j1" (pipelineEmissions (convertedPageNumbers 2)) 9,
        r.id = "j1" → r.current_page = 2 ∧ r.total_pages = 2)) :=
  ⟨by decide, pipeline_progress_monotone 2 (by decide) [row0] "j1" 9⟩

end Yoink
